import Mathlib

/-!
Shallow embedding of the cell-state engine of `src/src/main.ts`
(a Leaflet grid token game).  Pure Lean functions model the state
transitions performed by the TypeScript handlers; the Leaflet map,
DOM and geolocation side effects are presentation-only and carry no
game state beyond the `rendered` flag (which tracks whether the
`rect` field is present on an entry).

Numeric model: JavaScript numbers appearing as token values and tile
indices are modelled as `Int` (the program only ever produces integer
values for them: `Math.floor` results, sums, and `0`); the outputs of
the `luck` pseudo-random generator, compared against probabilities and
scaled before flooring, are modelled as `ℚ`.
-/

/-- `CacheEntry` from main.ts (lines 103-109).  The optional Leaflet
`rect` field carries no game state; `rendered` records its presence. -/
structure CacheEntry where
  i : Int
  j : Int
  pointValue : Int
  rendered : Bool
deriving DecidableEq, Repr

/-- The mutable player object of main.ts (lines 319-355), state part:
tile indices and the held token value (`null` as `none`). -/
structure PlayerState where
  tileI : Int
  tileJ : Int
  heldValue : Option Int
deriving DecidableEq, Repr

/-- The `cacheStore : Map<string, CacheEntry>` (line 543), modelled as a
list of entries in insertion order, looked up by tile coordinates
(`cellKey` is injective on pairs, so keying by the pair is faithful). -/
abbrev Store := List CacheEntry

/-- Whether an entry sits at coordinate `(i, j)`: the `cellKey` match. -/
def keyMatch (i j : Int) (e : CacheEntry) : Bool :=
  e.i == i && e.j == j

/-- `cacheStore.get(cellKey(i, j))`. -/
def Store.get (s : Store) (i j : Int) : Option CacheEntry :=
  s.find? (keyMatch i j)

/-- `cacheStore.set(cellKey(e.i, e.j), e)`: JS `Map.set` overwrites in
place when the key exists (keys are unique in a `Map`) and appends
otherwise. -/
def Store.set (s : Store) (e : CacheEntry) : Store :=
  if (s.find? (keyMatch e.i e.j)).isSome then
    s.map fun x => if keyMatch e.i e.j x then e else x
  else
    s ++ [e]

/-- A store is well formed when no two entries share a coordinate key,
as holds for any state of a JS `Map`. -/
def Store.WF (s : Store) : Prop :=
  (s.map fun e => (e.i, e.j)).Nodup

instance (s : Store) : Decidable s.WF := by
  unfold Store.WF; infer_instance

/-- `cellKey` (lines 545-547): the string `i + "," + j`. -/
def cellKey (i j : Int) : String :=
  toString i ++ "," ++ toString j

-- --------------------------------------------------------------------
-- Configuration constants (the CONFIG object, lines 36-99)
-- --------------------------------------------------------------------

/-- `CONFIG.spawn.probability` (line 50). -/
def CACHE_SPAWN_PROBABILITY : ℚ := 3 / 10

/-- `CONFIG.spawn.initialValueMultiplier` (line 52). -/
def INITIAL_VALUE_MULTIPLIER : ℚ := 2

/-- `CONFIG.render.unrenderFar` (line 57). -/
def UNRENDER_FAR : Bool := true

/-- `CONFIG.gameplay.interactRange` (line 63). -/
def INTERACT_RANGE : Nat := 3

/-- The argument string `[i, j].toString()` passed to `luck` for the
spawn decision (line 715): JS array `toString` joins with commas. -/
def presenceKey (i j : Int) : String :=
  toString i ++ "," ++ toString j

/-- The argument string `[i, j, "initialValue"].toString()` passed to
`luck` for the initial value (line 717). -/
def initialValueKey (i j : Int) : String :=
  toString i ++ "," ++ toString j ++ ",initialValue"

-- --------------------------------------------------------------------
-- Core state transitions
-- --------------------------------------------------------------------

/-- `canInteract` (lines 655-660): Chebyshev distance between the entry
and the player is at most `INTERACT_RANGE`. -/
def canInteract (p : PlayerState) (e : CacheEntry) : Bool :=
  max (e.i - p.tileI).natAbs (e.j - p.tileJ).natAbs ≤ INTERACT_RANGE

/-- State effect of `renderCacheEntry` (lines 549-653): a no-op when the
entry is already rendered, otherwise it creates the Leaflet rectangle
and marks the entry rendered; `pointValue` is never touched. -/
def renderCacheEntry (e : CacheEntry) : CacheEntry :=
  if e.rendered then e else { e with rendered := true }

/-- `ensureCacheRendered` (lines 705-724).  An existing entry is
re-rendered if currently unrendered; otherwise the generator `L`
(the `luck` hash, a pure function of its string argument) decides the
spawn, and a spawned entry gets
`Math.floor(luck([i,j,"initialValue"]) * multiplier)` as value.
The freshly created entry is stored and then rendered in place. -/
def ensureCacheRendered (L : String → ℚ) (s : Store) (i j : Int) : Store :=
  match Store.get s i j with
  | some existing =>
      if !existing.rendered then Store.set s (renderCacheEntry existing) else s
  | none =>
      if L (presenceKey i j) < CACHE_SPAWN_PROBABILITY then
        Store.set s
          (renderCacheEntry
            { i := i, j := j,
              pointValue := ⌊L (initialValueKey i j) * INITIAL_VALUE_MULTIPLIER⌋,
              rendered := false })
      else s

/-- `unrenderFarCaches` (lines 726-737): every rendered entry whose key
is not in `visibleKeys` loses its rectangle and its rendered flag; the
entry itself stays in the store with its value untouched. -/
def unrenderFarCaches (visibleKeys : List String) (s : Store) : Store :=
  if !UNRENDER_FAR then s
  else
    s.map fun e =>
      if !(visibleKeys.contains (cellKey e.i e.j)) && e.rendered then
        { e with rendered := false }
      else e

/-- `player.setHeld` (lines 343-349), state part: it assigns the held
value unconditionally, then updates the UI, saves, and runs the win
check (modelled separately). -/
def setHeld (p : PlayerState) (v : Option Int) : PlayerState :=
  { p with heldValue := v }

/-- `checkWinCondition` (lines 860-882): the win dialog fires exactly
when the player currently holds 256. -/
def checkWinCondition (p : PlayerState) : Bool :=
  p.heldValue == some 256

/-- `setHeld` together with the win signal its `checkWinCondition` call
emits: the returned flag is true iff the transition ends with the
player holding 256. -/
def setHeldSignals (p : PlayerState) (v : Option Int) : PlayerState × Bool :=
  (setHeld p v, checkWinCondition (setHeld p v))

/-- The Collect button handler (lines 598-613), state part: rejected
when out of range, the cache is empty, or the player already holds a
token; otherwise the player picks up the value and the cache becomes
empty.  (`setHeld` is called before `entry.pointValue = 0`, so the
held value is the original cache value.) -/
def collectClick (e : CacheEntry) (p : PlayerState) : CacheEntry × PlayerState :=
  if !canInteract p e || e.pointValue ≤ 0 || p.heldValue.isSome then (e, p)
  else ({ e with pointValue := 0 }, setHeld p (some e.pointValue))

/-- The Combine button handler (lines 616-643), state part: rejected
when out of range or holding nothing; places the held value into an
empty square; otherwise combines only when the held value equals the
square value, doubling it. -/
def combineClick (e : CacheEntry) (p : PlayerState) : CacheEntry × PlayerState :=
  match p.heldValue with
  | none => (e, p)
  | some h =>
      if !canInteract p e then (e, p)
      else if e.pointValue == 0 then
        ({ e with pointValue := h }, setHeld p none)
      else if h != e.pointValue then (e, p)
      else ({ e with pointValue := h + e.pointValue }, setHeld p none)

/-- The Collect handler instrumented with the win signal emitted by its
`player.setHeld` call. -/
def collectClickW (e : CacheEntry) (p : PlayerState) :
    CacheEntry × PlayerState × Bool :=
  if !canInteract p e || e.pointValue ≤ 0 || p.heldValue.isSome then (e, p, false)
  else
    ({ e with pointValue := 0 },
     (setHeldSignals p (some e.pointValue)).1,
     (setHeldSignals p (some e.pointValue)).2)

/-- The Combine handler instrumented with the win signal emitted by its
`player.setHeld` call (both branches call `setHeld(null)`). -/
def combineClickW (e : CacheEntry) (p : PlayerState) :
    CacheEntry × PlayerState × Bool :=
  match p.heldValue with
  | none => (e, p, false)
  | some h =>
      if !canInteract p e then (e, p, false)
      else if e.pointValue == 0 then
        ({ e with pointValue := h },
         (setHeldSignals p none).1, (setHeldSignals p none).2)
      else if h != e.pointValue then (e, p, false)
      else
        ({ e with pointValue := h + e.pointValue },
         (setHeldSignals p none).1, (setHeldSignals p none).2)

-- --------------------------------------------------------------------
-- Store-level actions (the handlers mutate the entry inside the store)
-- --------------------------------------------------------------------

/-- The Collect handler acting on the entry stored at `(i, j)`: the
in-place mutation of the stored object is a `Store.set` of the updated
entry. -/
def collectClickStore (s : Store) (i j : Int) (p : PlayerState) :
    Store × PlayerState :=
  match Store.get s i j with
  | none => (s, p)
  | some e => (Store.set s (collectClick e p).1, (collectClick e p).2)

/-- The Combine handler acting on the entry stored at `(i, j)`. -/
def combineClickStore (s : Store) (i j : Int) (p : PlayerState) :
    Store × PlayerState :=
  match Store.get s i j with
  | none => (s, p)
  | some e => (Store.set s (combineClick e p).1, (combineClick e p).2)

-- --------------------------------------------------------------------
-- Persistence (saveState / loadState, lines 788-849)
-- --------------------------------------------------------------------

/-- One element of the `caches` array of the persisted payload
(line 790): coordinate and value only. -/
structure SavedCache where
  i : Int
  j : Int
  pointValue : Int
deriving DecidableEq, Repr

/-- The persisted payload (lines 794-801).  The wall-clock `ts` field
is ignored by `loadState` and omitted here. -/
structure Payload where
  playerTileI : Int
  playerTileJ : Int
  heldValue : Option Int
  caches : List SavedCache
deriving DecidableEq, Repr

/-- `saveState` (lines 788-806), data part: the payload it serializes
from the player state and the cache store.  Rendered flags are not
persisted. -/
def saveStatePayload (p : PlayerState) (s : Store) : Payload :=
  { playerTileI := p.tileI,
    playerTileJ := p.tileJ,
    heldValue := p.heldValue,
    caches := s.map fun e => { i := e.i, j := e.j, pointValue := e.pointValue } }

/-- A JavaScript runtime value as found in a parsed JSON blob, for the
fields `loadState` reads dynamically. -/
inductive JVal where
  | null
  | num (n : Int)
  | str (s : String)
  | bool (b : Bool)
deriving DecidableEq, Repr

/-- The player state as it may look after `loadState`: because
`loadState` assigns `parsed.heldValue` whenever the key is present
(`typeof parsed.heldValue !== "undefined"`, line 824) without checking
its type, the held slot can end up holding any JSON value. -/
structure JPlayer where
  tileI : Int
  tileJ : Int
  heldValue : JVal
deriving DecidableEq, Repr

/-- The result of `JSON.parse` on a stored blob, restricted to the keys
`loadState` reads.  `none` in a field means the key is absent;
`caches = none` also covers a present value failing the
`Array.isArray` test (line 828).  Elements of a present `caches` array
are used as cache records without further checks; the TS cast asserts
them as number triples, modelled as `SavedCache`. -/
structure ParsedState where
  playerTileI : Option JVal
  playerTileJ : Option JVal
  heldValue : Option JVal
  caches : Option (List SavedCache)
deriving DecidableEq, Repr

/-- Body of `loadState` on a successfully parsed blob (lines 818-845):
tile indices are taken only when typed as numbers, the held value is
taken whenever present, and each saved cache record is written into
the store with `rendered := false`, overwriting any existing entry at
its key. -/
def loadStateParsed (parsed : ParsedState) (p : JPlayer) (s : Store) :
    JPlayer × Store :=
  let p1 := match parsed.playerTileI with
    | some (JVal.num n) => { p with tileI := n }
    | _ => p
  let p2 := match parsed.playerTileJ with
    | some (JVal.num n) => { p1 with tileJ := n }
    | _ => p1
  let p3 := match parsed.heldValue with
    | some v => { p2 with heldValue := v }
    | none => p2
  let s2 := match parsed.caches with
    | some cs =>
        cs.foldl
          (fun acc c =>
            Store.set acc
              { i := c.i, j := c.j, pointValue := c.pointValue, rendered := false })
          s
    | none => s
  (p3, s2)

/-- `loadState` (lines 808-849): a missing blob (`raw` is `null`) or a
`JSON.parse` failure returns `false` leaving all state at its
defaults; otherwise the parsed blob is applied field by field and
`true` is returned.  The function never throws. -/
def loadState (raw : Option ParsedState) (p : JPlayer) (s : Store) :
    Bool × JPlayer × Store :=
  match raw with
  | none => (false, p, s)
  | some parsed => (true, (loadStateParsed parsed p s).1, (loadStateParsed parsed p s).2)

/-- The fresh defaults in force at startup before `loadState` runs:
player at tile (0,0) holding nothing (`heldValue: null`, lines
329-332) and an empty cache store (line 543). -/
def freshPlayer : JPlayer := { tileI := 0, tileJ := 0, heldValue := JVal.null }

/-- The empty cache store. -/
def emptyStore : Store := []

/-- Encoding of the typed held value as the JSON runtime value
`JSON.parse` yields for it. -/
def encodeHeld : Option Int → JVal
  | some v => JVal.num v
  | none => JVal.null

/-- Re-parsing a payload produced by `saveState`: `JSON.stringify`
followed by `JSON.parse` is the identity on this well-typed data, so
every key is present and carries the typed value. -/
def payloadToParsed (pl : Payload) : ParsedState :=
  { playerTileI := some (JVal.num pl.playerTileI),
    playerTileJ := some (JVal.num pl.playerTileJ),
    heldValue := some (encodeHeld pl.heldValue),
    caches := some pl.caches }

-- --------------------------------------------------------------------
-- Collect with its persistence trace (for the save-ordering analysis)
-- --------------------------------------------------------------------

/-- The Collect handler with the list of payloads it persists, in
order.  The only save during a successful Collect happens inside
`player.setHeld(entry.pointValue)` (line 607), which runs BEFORE
`entry.pointValue = 0` (line 608); the handler itself never calls
`saveState` afterwards.  So the single persisted payload snapshots the
store with the cache still at its pre-collect value. -/
def collectClickStoreSaves (s : Store) (i j : Int) (p : PlayerState) :
    Store × PlayerState × List Payload :=
  match Store.get s i j with
  | none => (s, p, [])
  | some e =>
      if !canInteract p e || e.pointValue ≤ 0 || p.heldValue.isSome then (s, p, [])
      else
        (Store.set s { e with pointValue := 0 },
         setHeld p (some e.pointValue),
         [saveStatePayload (setHeld p (some e.pointValue)) s])

-- --------------------------------------------------------------------
-- New game (startNewGame, lines 887-938) and viewport sweeps
-- --------------------------------------------------------------------

/-- Store after `startNewGame`: `cacheStore.clear()` (line 910). -/
def startNewGameStore : Store := []

/-- Player state after `startNewGame` (lines 925-927). -/
def startNewGamePlayer : PlayerState :=
  { tileI := 0, tileJ := 0, heldValue := none }

/-- One store-affecting step of the viewport machinery: a
materialization request for a coordinate, or an unrender sweep with a
set of visible keys (as issued by `updateCachesInView`). -/
inductive ViewOp where
  | ensure (i j : Int)
  | unrender (visibleKeys : List String)

/-- Apply one viewport operation to the store. -/
def applyViewOp (L : String → ℚ) (s : Store) : ViewOp → Store
  | ViewOp.ensure i j => ensureCacheRendered L s i j
  | ViewOp.unrender ks => unrenderFarCaches ks s

/-- Apply a sequence of viewport operations (any interleaving of
materializations and unrender sweeps). -/
def applyViewOps (L : String → ℚ) (s : Store) (ops : List ViewOp) : Store :=
  ops.foldl (applyViewOp L) s

-- --------------------------------------------------------------------
-- Derived totals
-- --------------------------------------------------------------------

/-- Sum of all token values stored in the cache store. -/
def storeTotal (s : Store) : Int :=
  (s.map CacheEntry.pointValue).sum

/-- The held token value, counting `null` as 0. -/
def heldTotal (p : PlayerState) : Int :=
  p.heldValue.getD 0

-- --------------------------------------------------------------------
-- Store lemmas
-- --------------------------------------------------------------------

lemma keyMatch_iff {i j : Int} {e : CacheEntry} :
    keyMatch i j e = true ↔ e.i = i ∧ e.j = j := by
  simp [keyMatch]

lemma get_key {s : Store} {i j : Int} {e : CacheEntry}
    (h : Store.get s i j = some e) : e.i = i ∧ e.j = j :=
  keyMatch_iff.mp (List.find?_some h)

lemma find?_map_invariant {α : Type} (f : α → α) (q : α → Bool)
    (h : ∀ x, q (f x) = q x) :
    ∀ s : List α, (s.map f).find? q = (s.find? q).map f := by
  intro s
  induction s with
  | nil => rfl
  | cons x xs ih =>
      by_cases hx : q x = true
      · simp [List.find?_cons_of_pos, hx, h x]
      · have hx' : q x = false := by simpa using hx
        have hfx : q (f x) = false := by rw [h x]; exact hx'
        simp only [List.map_cons]
        rw [List.find?_cons_of_neg _ (by simp [hfx]),
          List.find?_cons_of_neg _ (by simp [hx']), ih]

lemma find?_map_replace {α : Type} (q : α → Bool) (b : α) (hb : q b = true) :
    ∀ s : List α,
      ((s.map fun x => if q x then b else x).find? q) =
        if (s.find? q).isSome then some b else none := by
  intro s
  induction s with
  | nil => rfl
  | cons x xs ih =>
      by_cases hx : q x = true
      · simp [List.find?_cons_of_pos, hx, hb]
      · have hx' : q x = false := by simpa using hx
        simp only [List.map_cons, hx', if_false]
        rw [List.find?_cons_of_neg _ (by simp [hx']),
          List.find?_cons_of_neg _ (by simp [hx']), ih]

lemma get_set_same {s : Store} {e2 : CacheEntry} {i j : Int}
    (hkey : e2.i = i ∧ e2.j = j) :
    Store.get (Store.set s e2) i j = some e2 := by
  have hq : keyMatch i j e2 = true := keyMatch_iff.mpr hkey
  have hqq : keyMatch e2.i e2.j = keyMatch i j := by
    rw [hkey.1, hkey.2]
  unfold Store.set
  rw [hqq]
  by_cases hs : (List.find? (keyMatch i j) s).isSome
  · rw [if_pos hs]
    unfold Store.get
    rw [find?_map_replace (keyMatch i j) e2 hq s, if_pos hs]
  · rw [if_neg hs]
    unfold Store.get
    rw [List.find?_append]
    have hnone : List.find? (keyMatch i j) s = none := by
      cases h : List.find? (keyMatch i j) s with
      | none => rfl
      | some a => rw [h] at hs; simp at hs
    rw [hnone]
    simp [hq]

lemma get_set_other {s : Store} {e2 : CacheEntry} {i j : Int}
    (hkey : keyMatch i j e2 = false) :
    Store.get (Store.set s e2) i j = Store.get s i j := by
  unfold Store.set
  by_cases hs : (List.find? (keyMatch e2.i e2.j) s).isSome
  · rw [if_pos hs]
    unfold Store.get
    have hpres : ∀ x : CacheEntry,
        keyMatch i j (if keyMatch e2.i e2.j x then e2 else x) = keyMatch i j x := by
      intro x
      by_cases hx : keyMatch e2.i e2.j x = true
      · have hxk := keyMatch_iff.mp hx
        have : keyMatch i j x = false := by
          by_contra hc
          have hxk2 := keyMatch_iff.mp (by simpa using hc)
          have : keyMatch i j e2 = true := by
            apply keyMatch_iff.mpr
            constructor
            · rw [← hxk2.1, hxk.1]
            · rw [← hxk2.2, hxk.2]
          rw [this] at hkey; exact absurd hkey (by simp)
        rw [hx, if_pos rfl, hkey, this]
      · have hx' : keyMatch e2.i e2.j x = false := by simpa using hx
        rw [hx']
        simp
    rw [find?_map_invariant _ _ hpres s]
    cases h : List.find? (keyMatch i j) s with
    | none => rfl
    | some a =>
        have ha : keyMatch i j a = true := List.find?_some h
        have hae2 : keyMatch e2.i e2.j a = false := by
          by_contra hc
          have hak := keyMatch_iff.mp (by simpa using hc)
          have hak2 := keyMatch_iff.mp ha
          have : keyMatch i j e2 = true := by
            apply keyMatch_iff.mpr
            constructor
            · omega
            · omega
          rw [this] at hkey; exact absurd hkey (by simp)
        simp [hae2]
  · rw [if_neg hs]
    unfold Store.get
    rw [List.find?_append]
    simp [hkey]

lemma get_map_keys {s : Store} {i j : Int} (f : CacheEntry → CacheEntry)
    (hpres : ∀ x, keyMatch i j (f x) = keyMatch i j x) :
    Store.get (s.map f) i j = (Store.get s i j).map f :=
  find?_map_invariant f (keyMatch i j) hpres s

lemma renderCacheEntry_i (x : CacheEntry) : (renderCacheEntry x).i = x.i := by
  unfold renderCacheEntry; split <;> rfl

lemma renderCacheEntry_j (x : CacheEntry) : (renderCacheEntry x).j = x.j := by
  unfold renderCacheEntry; split <;> rfl

lemma renderCacheEntry_pointValue (x : CacheEntry) :
    (renderCacheEntry x).pointValue = x.pointValue := by
  unfold renderCacheEntry; split <;> rfl

lemma keyMatch_render (i j : Int) (x : CacheEntry) :
    keyMatch i j (renderCacheEntry x) = keyMatch i j x := by
  simp [keyMatch, renderCacheEntry_i, renderCacheEntry_j]

lemma ensureCacheRendered_existing {L : String → ℚ} {s : Store} {i2 j2 : Int}
    {existing : CacheEntry} (hg : Store.get s i2 j2 = some existing) :
    ensureCacheRendered L s i2 j2 =
      if !existing.rendered then Store.set s (renderCacheEntry existing) else s := by
  unfold ensureCacheRendered
  rw [hg]

lemma ensureCacheRendered_none {L : String → ℚ} {s : Store} {i2 j2 : Int}
    (hg : Store.get s i2 j2 = none) :
    ensureCacheRendered L s i2 j2 =
      if L (presenceKey i2 j2) < CACHE_SPAWN_PROBABILITY then
        Store.set s
          (renderCacheEntry
            { i := i2, j := j2,
              pointValue := ⌊L (initialValueKey i2 j2) * INITIAL_VALUE_MULTIPLIER⌋,
              rendered := false })
      else s := by
  unfold ensureCacheRendered
  rw [hg]

lemma unrenderFarCaches_eq (ks : List String) (s : Store) :
    unrenderFarCaches ks s =
      s.map fun e =>
        if !(ks.contains (cellKey e.i e.j)) && e.rendered then
          { e with rendered := false }
        else e := by
  unfold unrenderFarCaches UNRENDER_FAR
  simp

lemma get_viewOp_preserved (L : String → ℚ) (op : ViewOp) (s : Store) (i j : Int)
    (e : CacheEntry) (h : ∃ r, Store.get s i j = some { e with rendered := r }) :
    ∃ r, Store.get (applyViewOp L s op) i j = some { e with rendered := r } := by
  obtain ⟨r, hr⟩ := h
  cases op with
  | ensure i2 j2 =>
      simp only [applyViewOp]
      by_cases hij : i2 = i ∧ j2 = j
      · obtain ⟨hi, hj⟩ := hij
        subst hi; subst hj
        rw [ensureCacheRendered_existing hr]
        cases r with
        | true => rw [if_neg (by simp)]; exact ⟨true, hr⟩
        | false =>
            rw [if_pos (by simp)]
            refine ⟨true, ?_⟩
            have hks : (renderCacheEntry { e with rendered := false }).i = i2 ∧
                (renderCacheEntry { e with rendered := false }).j = j2 := by
              have hk := get_key hr
              rw [renderCacheEntry_i, renderCacheEntry_j]
              exact hk
            rw [get_set_same hks]
            simp [renderCacheEntry]
      · cases hg : Store.get s i2 j2 with
        | some existing =>
            rw [ensureCacheRendered_existing hg]
            obtain ⟨h3, h4⟩ := get_key hg
            have hdiff : keyMatch i j (renderCacheEntry existing) = false := by
              rw [keyMatch_render, Bool.eq_false_iff]
              intro hc
              obtain ⟨h1, h2⟩ := keyMatch_iff.mp hc
              exact hij ⟨by omega, by omega⟩
            by_cases hrend : (!existing.rendered) = true
            · rw [if_pos hrend, get_set_other hdiff]; exact ⟨r, hr⟩
            · rw [if_neg hrend]; exact ⟨r, hr⟩
        | none =>
            rw [ensureCacheRendered_none hg]
            by_cases hsp : L (presenceKey i2 j2) < CACHE_SPAWN_PROBABILITY
            · rw [if_pos hsp]
              have hdiff : keyMatch i j
                  (renderCacheEntry
                    { i := i2, j := j2,
                      pointValue :=
                        ⌊L (initialValueKey i2 j2) * INITIAL_VALUE_MULTIPLIER⌋,
                      rendered := false }) = false := by
                rw [keyMatch_render, Bool.eq_false_iff]
                intro hc
                obtain ⟨h1, h2⟩ := keyMatch_iff.mp hc
                exact hij ⟨h1, h2⟩
              rw [get_set_other hdiff]
              exact ⟨r, hr⟩
            · rw [if_neg hsp]; exact ⟨r, hr⟩
  | unrender ks =>
      simp only [applyViewOp]
      rw [unrenderFarCaches_eq]
      rw [get_map_keys
        (fun x =>
          if !(ks.contains (cellKey x.i x.j)) && x.rendered then
            { x with rendered := false }
          else x)
        (by
          intro x
          dsimp only
          split
          · simp [keyMatch]
          · rfl)]
      rw [hr]
      simp only [Option.map_some']
      split
      · exact ⟨false, rfl⟩
      · exact ⟨r, rfl⟩

lemma get_viewOps_preserved (L : String → ℚ) (ops : List ViewOp) :
    ∀ (s : Store) (i j : Int) (e : CacheEntry),
      (∃ r, Store.get s i j = some { e with rendered := r }) →
      ∃ r, Store.get (applyViewOps L s ops) i j = some { e with rendered := r } := by
  induction ops with
  | nil => intro s i j e h; exact h
  | cons op rest ih =>
      intro s i j e h
      exact ih (applyViewOp L s op) i j e (get_viewOp_preserved L op s i j e h)

/-- C1.  Once a cache entry exists in the store, any sequence of
materializations (`ensureCacheRendered`) and unrender sweeps
(`unrenderFarCaches`) — in particular any number of
unrender/re-materialize cycles — leaves the entry present at its
coordinate with its coordinate and `pointValue` unchanged; only the
`rendered` presentation flag can differ, and none of these operations
deletes or regenerates the entry. -/
theorem claim_C1_entry_stable (L : String → ℚ) (s : Store) (ops : List ViewOp)
    (i j : Int) (e : CacheEntry) (h : Store.get s i j = some e) :
    ∃ r, Store.get (applyViewOps L s ops) i j =
      some { i := e.i, j := e.j, pointValue := e.pointValue, rendered := r } := by
  have h0 : ∃ r, Store.get s i j = some { e with rendered := r } := by
    refine ⟨e.rendered, ?_⟩
    rw [h]
  exact get_viewOps_preserved L ops s i j e h0

/-- Witness for C1: a concrete entry at (0,0) with value 1 survives an
unrender sweep followed by a re-materialization, value intact. -/
theorem claim_C1_entry_stable_witness :
    ∃ r, Store.get
        (applyViewOps (fun _ => 0)
          [{ i := 0, j := 0, pointValue := 1, rendered := true }]
          [ViewOp.unrender [], ViewOp.ensure 0 0])
        0 0 =
      some { i := 0, j := 0, pointValue := 1, rendered := r } := by
  exact claim_C1_entry_stable (fun _ => 0)
    [{ i := 0, j := 0, pointValue := 1, rendered := true }]
    [ViewOp.unrender [], ViewOp.ensure 0 0] 0 0
    { i := 0, j := 0, pointValue := 1, rendered := true } (by decide)

/-- C2.  The token-action step functions match the reference table on
every in-range cell entry (with the data-model invariant `value ≥ 0`)
and player state: Collect succeeds iff the cell is non-empty and the
player holds nothing, moving the value into the hand and emptying the
cell; the Combine button places the held value iff the cell is empty
and the player holds something; it combines iff the cell is non-empty
and its value equals the held value, doubling it; any action attempted
outside its precondition, or out of range, leaves both the cell entry
and the player state unchanged. -/
theorem claim_C2_action_table (e : CacheEntry) (p : PlayerState)
    (hv : 0 ≤ e.pointValue) :
    (canInteract p e = true → 0 < e.pointValue → p.heldValue = none →
        collectClick e p =
          ({ e with pointValue := 0 }, { p with heldValue := some e.pointValue })) ∧
    (¬(canInteract p e = true ∧ 0 < e.pointValue ∧ p.heldValue = none) →
        collectClick e p = (e, p)) ∧
    (∀ h, canInteract p e = true → e.pointValue = 0 → p.heldValue = some h →
        combineClick e p =
          ({ e with pointValue := h }, { p with heldValue := none })) ∧
    (canInteract p e = true → 0 < e.pointValue → p.heldValue = some e.pointValue →
        combineClick e p =
          ({ e with pointValue := e.pointValue + e.pointValue },
           { p with heldValue := none })) ∧
    (¬(canInteract p e = true ∧ p.heldValue.isSome = true ∧
          (e.pointValue = 0 ∨ p.heldValue = some e.pointValue)) →
        combineClick e p = (e, p)) := by
  refine ⟨?_, ?_, ?_, ?_, ?_⟩
  · intro h1 h2 h3
    unfold collectClick
    rw [if_neg]
    · rfl
    · simp [h1, h3]
      omega
  · intro hn
    unfold collectClick
    rw [if_pos]
    by_cases h1 : canInteract p e = true
    · by_cases h3 : p.heldValue = none
      · have h2 : ¬0 < e.pointValue := fun hc => hn ⟨h1, hc, h3⟩
        simp [h1, h3]
        omega
      · simp [h1, Option.isSome_iff_ne_none.mpr h3]
    · simp [Bool.eq_false_iff.mpr h1]
  · intro h h1 h2 h3
    simp [combineClick, h3, h1, h2, setHeld]
  · intro h1 h2 h3
    have hne : e.pointValue ≠ 0 := by omega
    simp [combineClick, h3, h1, hne, setHeld]
  · intro hn
    cases hp : p.heldValue with
    | none => simp [combineClick, hp]
    | some h =>
        by_cases h1 : canInteract p e = true
        · have hor : ¬(e.pointValue = 0 ∨ p.heldValue = some e.pointValue) :=
            fun hc => hn ⟨h1, by rw [hp]; rfl, hc⟩
          have hne : e.pointValue ≠ 0 := fun hc => hor (Or.inl hc)
          have hhne : h ≠ e.pointValue := by
            intro hc
            exact hor (Or.inr (by rw [hp, hc]))
          simp [combineClick, hp, h1, hne, hhne]
        · simp [combineClick, hp, Bool.eq_false_iff.mpr h1]

/-- Witness for C2, at scenario C of the spec: a player holding 4 next
to a cell holding 4 combines into a cell of 8, hand emptied. -/
theorem claim_C2_action_table_witness :
    combineClick { i := 1, j := 1, pointValue := 4, rendered := true }
        { tileI := 0, tileJ := 0, heldValue := some 4 } =
      ({ i := 1, j := 1, pointValue := 8, rendered := true },
       { tileI := 0, tileJ := 0, heldValue := none }) := by
  have h := claim_C2_action_table
    { i := 1, j := 1, pointValue := 4, rendered := true }
    { tileI := 0, tileJ := 0, heldValue := some 4 } (by decide)
  have h4 := h.2.2.2.1 (by decide) (by decide) (by decide)
  simpa using h4

/-- C4 counterexample: `setHeld` called with a non-null value while the
player already holds 5 does not fail and does not leave the held value
unchanged — it overwrites it with 7.  There is no InvalidState check
in `player.setHeld` (main.ts lines 343-349). -/
theorem claim_C4_counterexample :
    (setHeld { tileI := 0, tileJ := 0, heldValue := some 5 } (some 7)).heldValue
        = some 7 ∧
    (some 7 : Option Int) ≠ some 5 := by decide

/-- C4 as amended: `setHeld` assigns unconditionally (no InvalidState
rejection and no guard), and the at-most-one-held rule lives at the
call site instead: the Collect handler is a no-op whenever the player
already holds a token, and both token handlers preserve the invariant
that the held value is null or strictly positive. -/
theorem claim_C4_amended (p : PlayerState) (v : Option Int) (e : CacheEntry)
    (hOK : ∀ w, p.heldValue = some w → 0 < w) :
    setHeld p v = { p with heldValue := v } ∧
    (p.heldValue ≠ none → collectClick e p = (e, p)) ∧
    (∀ w, (collectClick e p).2.heldValue = some w → 0 < w) ∧
    (∀ w, (combineClick e p).2.heldValue = some w → 0 < w) := by
  refine ⟨rfl, ?_, ?_, ?_⟩
  · intro hsome
    unfold collectClick
    rw [if_pos]
    simp [Option.isSome_iff_ne_none.mpr hsome]
  · intro w hw
    unfold collectClick at hw
    by_cases hcond :
        (!canInteract p e || e.pointValue ≤ 0 || p.heldValue.isSome) = true
    · rw [if_pos hcond] at hw
      exact hOK w hw
    · rw [if_neg hcond] at hw
      simp only [setHeld] at hw
      have hle : ¬e.pointValue ≤ 0 := by
        intro hc
        exact hcond (by simp [hc])
      obtain rfl : e.pointValue = w := Option.some.inj hw
      omega
  · intro w hw
    cases hp : p.heldValue with
    | none => rw [combineClick, hp] at hw; exact hOK w (hp.symm ▸ hw)
    | some h =>
        rw [combineClick, hp] at hw
        dsimp only at hw
        by_cases h1 : (!canInteract p e) = true
        · rw [if_pos h1] at hw
          exact hOK w (hp ▸ hw)
        · rw [if_neg h1] at hw
          by_cases h2 : (e.pointValue == 0) = true
          · rw [if_pos h2] at hw
            simp [setHeld] at hw
          · rw [if_neg h2] at hw
            by_cases h3 : (h != e.pointValue) = true
            · rw [if_pos h3] at hw
              exact hOK w (hp ▸ hw)
            · rw [if_neg h3] at hw
              simp [setHeld] at hw

/-- Witness for C4 amended: a player already holding 2 clicking Collect
on a full in-range cell changes nothing. -/
theorem claim_C4_amended_witness :
    collectClick { i := 0, j := 0, pointValue := 1, rendered := true }
        { tileI := 0, tileJ := 0, heldValue := some 2 } =
      ({ i := 0, j := 0, pointValue := 1, rendered := true },
       { tileI := 0, tileJ := 0, heldValue := some 2 }) := by
  have h := claim_C4_amended
    { tileI := 0, tileJ := 0, heldValue := some 2 } (some 9)
    { i := 0, j := 0, pointValue := 1, rendered := true }
    (by
      intro w hw
      obtain rfl := Option.some.inj hw
      norm_num)
  exact h.2.1 (by decide)

/-- C5 counterexample: a player holding 128 combining with an in-range
cell holding 128 produces the cell value 256 and clears the hand, but
the win signal is `false` — no WinEvent fires at that mutation,
because `checkWinCondition` runs inside `setHeld(null)` and tests the
now-null held value against 256 (main.ts lines 616-643, 860-882). -/
theorem claim_C5_counterexample :
    combineClickW { i := 0, j := 0, pointValue := 128, rendered := true }
        { tileI := 0, tileJ := 0, heldValue := some 128 } =
      ({ i := 0, j := 0, pointValue := 256, rendered := true },
       { tileI := 0, tileJ := 0, heldValue := none }, false) := by decide

/-- C5 as amended: the win check runs after every `setHeld` transition
and signals exactly when the resulting held value is 256.  The Combine
button never signals a win (both its branches end in `setHeld(null)`);
in particular combining 128 with 128 signals nothing.  A win is
signalled by Collect exactly when it successfully picks up a cell
whose value is 256. -/
theorem claim_C5_amended :
    (∀ (p : PlayerState) (v : Option Int),
        (setHeldSignals p v).2 = true ↔ v = some 256) ∧
    (∀ (e : CacheEntry) (p : PlayerState), (combineClickW e p).2.2 = false) ∧
    (∀ (e : CacheEntry) (p : PlayerState),
        (collectClickW e p).2.2 = true ↔
          canInteract p e = true ∧ 0 < e.pointValue ∧ p.heldValue = none ∧
            e.pointValue = 256) := by
  refine ⟨?_, ?_, ?_⟩
  · intro p v
    simp [setHeldSignals, setHeld, checkWinCondition]
  · intro e p
    cases hp : p.heldValue with
    | none => rw [combineClickW, hp]
    | some h =>
        rw [combineClickW, hp]
        dsimp only
        by_cases h1 : (!canInteract p e) = true
        · rw [if_pos h1]
        · rw [if_neg h1]
          by_cases h2 : (e.pointValue == 0) = true
          · rw [if_pos h2]
            simp [setHeldSignals, setHeld, checkWinCondition]
          · rw [if_neg h2]
            by_cases h3 : (h != e.pointValue) = true
            · rw [if_pos h3]
            · rw [if_neg h3]
              simp [setHeldSignals, setHeld, checkWinCondition]
  · intro e p
    unfold collectClickW
    by_cases hcond :
        (!canInteract p e || e.pointValue ≤ 0 || p.heldValue.isSome) = true
    · rw [if_pos hcond]
      simp only [Bool.false_eq_true, false_iff]
      intro hc
      obtain ⟨h1, h2, h3, _⟩ := hc
      simp [h1, h3] at hcond
      omega
    · rw [if_neg hcond]
      simp only [Bool.or_eq_true, not_or, Bool.not_eq_true] at hcond
      obtain ⟨h12, h3⟩ := hcond
      obtain ⟨h1, h2⟩ := h12
      have h1' : canInteract p e = true := by
        cases hcan : canInteract p e
        · rw [hcan] at h1; simp at h1
        · rfl
      have h2' : 0 < e.pointValue := by
        by_contra hc
        have : e.pointValue ≤ 0 := by omega
        simp [this] at h2
      have h3' : p.heldValue = none := by
        cases hp : p.heldValue
        · rfl
        · rw [hp] at h3; simp at h3
      simp [setHeldSignals, setHeld, checkWinCondition, h1', h2', h3']

/-- Behaviour of `ensureCacheRendered` on a coordinate with no entry:
spawn below the probability threshold, no-op otherwise. -/
lemma ensure_spawn_spec (L : String → ℚ) (s : Store) (i j : Int)
    (h : Store.get s i j = none) :
    (L (presenceKey i j) < CACHE_SPAWN_PROBABILITY →
        Store.get (ensureCacheRendered L s i j) i j =
          some { i := i, j := j,
                 pointValue := ⌊L (initialValueKey i j) * INITIAL_VALUE_MULTIPLIER⌋,
                 rendered := true }) ∧
    (¬L (presenceKey i j) < CACHE_SPAWN_PROBABILITY →
        ensureCacheRendered L s i j = s) := by
  constructor
  · intro hlt
    rw [ensureCacheRendered_none h, if_pos hlt]
    have hks :
        (renderCacheEntry
          { i := i, j := j,
            pointValue := ⌊L (initialValueKey i j) * INITIAL_VALUE_MULTIPLIER⌋,
            rendered := false }).i = i ∧
        (renderCacheEntry
          { i := i, j := j,
            pointValue := ⌊L (initialValueKey i j) * INITIAL_VALUE_MULTIPLIER⌋,
            rendered := false }).j = j := by
      rw [renderCacheEntry_i, renderCacheEntry_j]
      exact ⟨rfl, rfl⟩
    rw [get_set_same hks]
    simp [renderCacheEntry]
  · intro hge
    rw [ensureCacheRendered_none h, if_neg hge]

/-- C6.  On a coordinate with no existing entry, `ensureCacheRendered`
creates an entry iff the generator presence value is strictly below
the spawn probability (0.3), and the created entry has value
`floor(generator value * multiplier)` with multiplier 2 and is stored
rendered; at or above the probability the store is left unchanged.
The `luck` generator (src/_luck.ts, not under src/) is modelled from
the spec §4.1 as a pure function of its string argument. -/
theorem claim_C6_spawn_rule (L : String → ℚ) (s : Store) (i j : Int)
    (h : Store.get s i j = none) :
    (L (presenceKey i j) < CACHE_SPAWN_PROBABILITY →
        Store.get (ensureCacheRendered L s i j) i j =
          some { i := i, j := j,
                 pointValue := ⌊L (initialValueKey i j) * INITIAL_VALUE_MULTIPLIER⌋,
                 rendered := true }) ∧
    (¬L (presenceKey i j) < CACHE_SPAWN_PROBABILITY →
        ensureCacheRendered L s i j = s) :=
  ensure_spawn_spec L s i j h

/-- Witness for C6, instantiating scenario A of the spec: presence
value 1/10 is below probability 3/10, so the cell spawns; the value
generator returns 9/10 and `floor(9/10 * 2) = 1`. -/
theorem claim_C6_spawn_rule_witness :
    Store.get
        (ensureCacheRendered
          (fun k => if k = "0,0,initialValue" then 9 / 10 else 1 / 10)
          [] 0 0) 0 0 =
      some { i := 0, j := 0, pointValue := 1, rendered := true } := by
  have hpk : presenceKey 0 0 = "0,0" := rfl
  have hik : initialValueKey 0 0 = "0,0,initialValue" := rfl
  have h := (claim_C6_spawn_rule
    (fun k => if k = "0,0,initialValue" then 9 / 10 else 1 / 10)
    [] 0 0 rfl).1
    (by rw [hpk, if_neg (by decide)]; norm_num [CACHE_SPAWN_PROBABILITY])
  rw [h, hik, if_pos rfl]
  norm_num [INITIAL_VALUE_MULTIPLIER]

/-- C10.  The spawn decision and initial value at a coordinate depend
only on the tile indices and the configuration constants: two
materializations of `(i, j)` on any two stores lacking an entry there
— in particular on the cleared store left by `startNewGame`, whose
re-anchoring never reaches `ensureCacheRendered` — produce the same
spawn/no-spawn outcome and the same entry. -/
theorem claim_C10_generation_deterministic (L : String → ℚ) (s1 s2 : Store)
    (i j : Int) (h1 : Store.get s1 i j = none) (h2 : Store.get s2 i j = none) :
    Store.get (ensureCacheRendered L s1 i j) i j =
      Store.get (ensureCacheRendered L s2 i j) i j ∧
    Store.get startNewGameStore i j = none := by
  refine ⟨?_, rfl⟩
  by_cases hlt : L (presenceKey i j) < CACHE_SPAWN_PROBABILITY
  · rw [(ensure_spawn_spec L s1 i j h1).1 hlt,
      (ensure_spawn_spec L s2 i j h2).1 hlt]
  · rw [(ensure_spawn_spec L s1 i j h1).2 hlt,
      (ensure_spawn_spec L s2 i j h2).2 hlt, h1, h2]

/-- Witness for C10: materializing (0,0) on a store already holding an
unrelated entry and on the cleared new-game store gives the same
result. -/
theorem claim_C10_generation_deterministic_witness :
    Store.get
        (ensureCacheRendered (fun _ => 0)
          [{ i := 1, j := 1, pointValue := 5, rendered := false }] 0 0) 0 0 =
      Store.get (ensureCacheRendered (fun _ => 0) startNewGameStore 0 0) 0 0 := by
  have h := claim_C10_generation_deterministic (fun _ => 0)
    [{ i := 1, j := 1, pointValue := 5, rendered := false }] startNewGameStore
    0 0 (by decide) (by decide)
  exact h.1

-- --------------------------------------------------------------------
-- Token conservation
-- --------------------------------------------------------------------

lemma map_replace_id (i j : Int) (e2 : CacheEntry) :
    ∀ s : Store, (∀ x ∈ s, keyMatch i j x = false) →
      (s.map fun x => if keyMatch i j x then e2 else x) = s := by
  intro s
  induction s with
  | nil => intro _; rfl
  | cons x xs ih =>
      intro hall
      have hx : ¬keyMatch i j x = true := by
        rw [hall x (by simp)]; simp
      simp only [List.map_cons]
      rw [if_neg hx, ih fun y hy => hall y (by simp [hy])]

lemma wf_cons {x : CacheEntry} {xs : Store} (h : Store.WF (x :: xs)) :
    (x.i, x.j) ∉ xs.map (fun e => (e.i, e.j)) ∧ Store.WF xs := by
  unfold Store.WF at h ⊢
  rw [List.map_cons, List.nodup_cons] at h
  exact h

lemma notmem_keys_no_match {i j : Int} {xs : Store}
    (hx : (i, j) ∉ xs.map fun e => (e.i, e.j)) :
    ∀ y ∈ xs, keyMatch i j y = false := by
  intro y hy
  rw [Bool.eq_false_iff]
  intro hc
  obtain ⟨h1, h2⟩ := keyMatch_iff.mp hc
  exact hx (by
    rw [List.mem_map]
    exact ⟨y, hy, by rw [h1, h2]⟩)

lemma storeTotal_map_replace (i j : Int) (e2 : CacheEntry) :
    ∀ (s : Store), Store.WF s → ∀ e, Store.get s i j = some e →
      storeTotal (s.map fun x => if keyMatch i j x then e2 else x) =
        storeTotal s - e.pointValue + e2.pointValue := by
  intro s
  induction s with
  | nil => intro _ e hg; simp [Store.get] at hg
  | cons x xs ih =>
      intro hWF e hg
      obtain ⟨hnot, hWFxs⟩ := wf_cons hWF
      by_cases hx : keyMatch i j x = true
      · have hex : e = x := by
          unfold Store.get at hg
          rw [List.find?_cons_of_pos _ hx] at hg
          exact (Option.some.inj hg).symm
        have hkij := keyMatch_iff.mp hx
        have hrest : ∀ y ∈ xs, keyMatch i j y = false :=
          notmem_keys_no_match (by rw [← hkij.1, ← hkij.2]; exact hnot)
        simp only [List.map_cons]
        rw [if_pos hx, map_replace_id i j e2 xs hrest]
        unfold storeTotal
        simp only [List.map_cons, List.sum_cons]
        rw [hex]
        ring
      · have hg2 : Store.get xs i j = some e := by
          unfold Store.get at hg ⊢
          rwa [List.find?_cons_of_neg _ (by simpa using hx)] at hg
        simp only [List.map_cons]
        rw [if_neg hx]
        unfold storeTotal at ih ⊢
        simp only [List.map_cons, List.sum_cons]
        rw [ih hWFxs e hg2]
        ring

lemma set_eq_map_replace {s : Store} {i j : Int} {e e2 : CacheEntry}
    (hg : Store.get s i j = some e) (hkey : e2.i = i ∧ e2.j = j) :
    Store.set s e2 = s.map fun x => if keyMatch i j x then e2 else x := by
  unfold Store.set
  have hq : keyMatch e2.i e2.j = keyMatch i j := by rw [hkey.1, hkey.2]
  rw [hq, if_pos (by rw [show s.find? (keyMatch i j) = some e from hg]; rfl)]

lemma storeTotal_set (e2 : CacheEntry) {s : Store} {i j : Int} {e : CacheEntry}
    (hWF : Store.WF s) (hg : Store.get s i j = some e)
    (hkey : e2.i = i ∧ e2.j = j) :
    storeTotal (Store.set s e2) = storeTotal s - e.pointValue + e2.pointValue := by
  rw [set_eq_map_replace hg hkey]
  exact storeTotal_map_replace i j e2 s hWF e hg

/-- C9.  Every token action conserves the total token quantity: the sum
of the player's held value (null as 0) and all stored cell values is
unchanged by a Collect click and by a Combine click (place or merge),
whether the action succeeds or is rejected. -/
theorem claim_C9_token_conservation (s : Store) (i j : Int) (p : PlayerState)
    (hWF : Store.WF s) :
    storeTotal (collectClickStore s i j p).1 +
        heldTotal (collectClickStore s i j p).2 =
      storeTotal s + heldTotal p ∧
    storeTotal (combineClickStore s i j p).1 +
        heldTotal (combineClickStore s i j p).2 =
      storeTotal s + heldTotal p := by
  constructor
  · unfold collectClickStore
    cases hg : Store.get s i j with
    | none => rfl
    | some e =>
        dsimp only
        have hkey := get_key hg
        unfold collectClick
        by_cases hcond :
            (!canInteract p e || e.pointValue ≤ 0 || p.heldValue.isSome) = true
        · rw [if_pos hcond]
          dsimp only
          rw [storeTotal_set e hWF hg hkey]
          ring
        · rw [if_neg hcond]
          dsimp only
          have hnone : p.heldValue = none := by
            cases hp : p.heldValue with
            | none => rfl
            | some w => rw [hp] at hcond; simp at hcond
          rw [storeTotal_set { e with pointValue := 0 } hWF hg ⟨hkey.1, hkey.2⟩]
          simp [heldTotal, setHeld, hnone]
  · unfold combineClickStore
    cases hg : Store.get s i j with
    | none => rfl
    | some e =>
        dsimp only
        have hkey := get_key hg
        unfold combineClick
        cases hp : p.heldValue with
        | none =>
            dsimp only
            rw [storeTotal_set e hWF hg hkey]
            ring
        | some h =>
            dsimp only
            by_cases h1 : (!canInteract p e) = true
            · rw [if_pos h1]
              dsimp only
              rw [storeTotal_set e hWF hg hkey]
              ring
            · rw [if_neg h1]
              by_cases h2 : (e.pointValue == 0) = true
              · rw [if_pos h2]
                dsimp only
                have hpv : e.pointValue = 0 := by simpa using h2
                rw [storeTotal_set { e with pointValue := h } hWF hg
                  ⟨hkey.1, hkey.2⟩]
                simp [heldTotal, setHeld, hp, hpv]
              · rw [if_neg h2]
                by_cases h3 : (h != e.pointValue) = true
                · rw [if_pos h3]
                  dsimp only
                  rw [storeTotal_set e hWF hg hkey]
                  ring
                · rw [if_neg h3]
                  dsimp only
                  rw [storeTotal_set { e with pointValue := h + e.pointValue }
                    hWF hg ⟨hkey.1, hkey.2⟩]
                  simp [heldTotal, setHeld, hp]

/-- Witness for C9: merging a held 4 into an in-range cell holding 4
keeps the total at 8. -/
theorem claim_C9_token_conservation_witness :
    storeTotal (combineClickStore
        [{ i := 0, j := 0, pointValue := 4, rendered := true }]
        0 0 { tileI := 0, tileJ := 0, heldValue := some 4 }).1 +
      heldTotal (combineClickStore
        [{ i := 0, j := 0, pointValue := 4, rendered := true }]
        0 0 { tileI := 0, tileJ := 0, heldValue := some 4 }).2 =
    storeTotal [{ i := 0, j := 0, pointValue := 4, rendered := true }] +
      heldTotal { tileI := 0, tileJ := 0, heldValue := some 4 } := by
  exact (claim_C9_token_conservation
    [{ i := 0, j := 0, pointValue := 4, rendered := true }] 0 0
    { tileI := 0, tileJ := 0, heldValue := some 4 } (by decide)).2

-- --------------------------------------------------------------------
-- Round-trip persistence
-- --------------------------------------------------------------------

lemma wf_saved_cons {c : SavedCache} {cs : List SavedCache}
    (h : ((c :: cs).map fun c => (c.i, c.j)).Nodup) :
    (c.i, c.j) ∉ cs.map (fun c => (c.i, c.j)) ∧
      ((cs.map fun c => (c.i, c.j)).Nodup) := by
  rw [List.map_cons, List.nodup_cons] at h
  exact h

lemma get_load_fold (i j : Int) :
    ∀ (cs : List SavedCache) (acc : Store),
      ((cs.map fun c => (c.i, c.j)).Nodup) →
      Store.get
          (cs.foldl
            (fun acc c =>
              Store.set acc
                { i := c.i, j := c.j, pointValue := c.pointValue,
                  rendered := false }) acc) i j =
        match cs.find? (fun c => c.i == i && c.j == j) with
        | some c => some { i := c.i, j := c.j, pointValue := c.pointValue,
                           rendered := false }
        | none => Store.get acc i j := by
  intro cs
  induction cs with
  | nil => intro acc _; rfl
  | cons c cs ih =>
      intro acc hnd
      obtain ⟨hnot, hnd2⟩ := wf_saved_cons hnd
      by_cases hc : (c.i == i && c.j == j) = true
      · have hk : c.i = i ∧ c.j = j := by simpa using hc
        have hcs_none : cs.find? (fun c => c.i == i && c.j == j) = none := by
          rw [List.find?_eq_none]
          intro y hy
          intro hcy
          have hky : y.i = i ∧ y.j = j := by simpa using hcy
          apply hnot
          rw [List.mem_map]
          exact ⟨y, hy, by rw [hky.1, hky.2, hk.1, hk.2]⟩
        have hfind : List.find? (fun c => c.i == i && c.j == j) (c :: cs) =
            some c := by
          rw [List.find?_cons]
          simp [hc]
        rw [List.foldl_cons, ih _ hnd2, hcs_none, hfind]
        dsimp only
        exact get_set_same ⟨hk.1, hk.2⟩
      · have hc' : (c.i == i && c.j == j) = false := by simpa using hc
        have hfind : List.find? (fun c => c.i == i && c.j == j) (c :: cs) =
            List.find? (fun c => c.i == i && c.j == j) cs := by
          rw [List.find?_cons]
          simp [hc']
        rw [List.foldl_cons, ih _ hnd2, hfind]
        cases hf : cs.find? (fun c => c.i == i && c.j == j) with
        | some a => rfl
        | none =>
            dsimp only
            exact get_set_other (by simpa [keyMatch] using hc)

lemma find?_map_toSaved (i j : Int) :
    ∀ s : Store,
      ((s.map fun e =>
          ({ i := e.i, j := e.j, pointValue := e.pointValue } : SavedCache)).find?
        (fun c => c.i == i && c.j == j)) =
      ((s.find? (keyMatch i j)).map fun e =>
        ({ i := e.i, j := e.j, pointValue := e.pointValue } : SavedCache)) := by
  intro s
  induction s with
  | nil => rfl
  | cons x xs ih =>
      simp only [List.map_cons]
      rw [List.find?_cons, List.find?_cons]
      by_cases hx : keyMatch i j x = true
      · have hx2 : (x.i == i && x.j == j) = true := by simpa [keyMatch] using hx
        rw [hx, hx2]
        rfl
      · have hx' : keyMatch i j x = false := by simpa using hx
        have hx2 : (x.i == i && x.j == j) = false := by
          simpa [keyMatch] using hx'
        rw [hx', hx2]
        exact ih

/-- C3.  Loading the blob produced by saving any game state onto the
startup defaults returns success and reproduces the player position,
the held value (as its JSON runtime encoding), and every cell's
coordinate and value exactly, with every loaded entry's rendered flag
false regardless of its value before the save. -/
theorem claim_C3_save_load_roundtrip (p : PlayerState) (s : Store)
    (hWF : Store.WF s) :
    (loadState (some (payloadToParsed (saveStatePayload p s)))
        freshPlayer emptyStore).1 = true ∧
    (loadState (some (payloadToParsed (saveStatePayload p s)))
        freshPlayer emptyStore).2.1.tileI = p.tileI ∧
    (loadState (some (payloadToParsed (saveStatePayload p s)))
        freshPlayer emptyStore).2.1.tileJ = p.tileJ ∧
    (loadState (some (payloadToParsed (saveStatePayload p s)))
        freshPlayer emptyStore).2.1.heldValue = encodeHeld p.heldValue ∧
    ∀ i j,
      Store.get
          ((loadState (some (payloadToParsed (saveStatePayload p s)))
            freshPlayer emptyStore).2.2) i j =
        (Store.get s i j).map fun e => { e with rendered := false } := by
  refine ⟨rfl, rfl, rfl, rfl, ?_⟩
  intro i j
  have hnd : (((s.map fun e =>
      ({ i := e.i, j := e.j, pointValue := e.pointValue } : SavedCache)).map
        fun c => (c.i, c.j)).Nodup) := by
    rw [List.map_map]
    exact hWF
  dsimp only [loadState, loadStateParsed, payloadToParsed, saveStatePayload]
  rw [get_load_fold i j _ emptyStore hnd, find?_map_toSaved i j s]
  cases hf : s.find? (keyMatch i j) with
  | some e => rw [show Store.get s i j = some e from hf]; rfl
  | none => rw [show Store.get s i j = none from hf]; rfl

/-- Witness for C3: a concrete two-cell state round-trips; the loaded
entry at (0,0) has its saved value and a cleared rendered flag. -/
theorem claim_C3_save_load_roundtrip_witness :
    (loadState (some (payloadToParsed (saveStatePayload
        { tileI := 2, tileJ := -1, heldValue := some 6 }
        [{ i := 0, j := 0, pointValue := 5, rendered := true },
         { i := 5, j := -3, pointValue := 2, rendered := false }])))
        freshPlayer emptyStore).2.1.tileI = 2 ∧
    (loadState (some (payloadToParsed (saveStatePayload
        { tileI := 2, tileJ := -1, heldValue := some 6 }
        [{ i := 0, j := 0, pointValue := 5, rendered := true },
         { i := 5, j := -3, pointValue := 2, rendered := false }])))
        freshPlayer emptyStore).2.1.heldValue = JVal.num 6 ∧
    Store.get
        ((loadState (some (payloadToParsed (saveStatePayload
          { tileI := 2, tileJ := -1, heldValue := some 6 }
          [{ i := 0, j := 0, pointValue := 5, rendered := true },
           { i := 5, j := -3, pointValue := 2, rendered := false }])))
          freshPlayer emptyStore).2.2) 0 0 =
      some { i := 0, j := 0, pointValue := 5, rendered := false } := by
  have h := claim_C3_save_load_roundtrip
    { tileI := 2, tileJ := -1, heldValue := some 6 }
    [{ i := 0, j := 0, pointValue := 5, rendered := true },
     { i := 5, j := -3, pointValue := 2, rendered := false }] (by decide)
  refine ⟨h.2.1, h.2.2.2.1, ?_⟩
  have hg := h.2.2.2.2 0 0
  rw [show Store.get
      [{ i := 0, j := 0, pointValue := 5, rendered := true },
       { i := 5, j := -3, pointValue := 2, rendered := false }] 0 0 =
      some { i := 0, j := 0, pointValue := 5, rendered := true } from by decide]
    at hg
  simpa using hg

/-- C8 counterexample: a blob that parses but carries a wrongly-typed
`heldValue` (the string "bogus") does NOT fall back to the default for
that field — `loadState` assigns it verbatim, because the guard is
`typeof parsed.heldValue !== "undefined"` (main.ts line 824) rather
than a number/null type check.  Correctly-typed tile indices in the
same blob are loaded. -/
theorem claim_C8_counterexample :
    (loadState
        (some { playerTileI := some (JVal.num 7),
                playerTileJ := some (JVal.num 8),
                heldValue := some (JVal.str "bogus"),
                caches := some [] })
        freshPlayer emptyStore).2.1 =
      { tileI := 7, tileJ := 8, heldValue := JVal.str "bogus" } ∧
    JVal.str "bogus" ≠ freshPlayer.heldValue := by decide

/-- C8 as amended: `loadState` is total and never raises.  A missing or
unparseable blob returns false and keeps every default.  On a parsed
blob the fields are applied independently: `playerTileI` and
`playerTileJ` are taken only when typed as numbers and otherwise fall
back to the prior values, while correctly-typed fields of the same
blob are still loaded; `heldValue`, however, is assigned verbatim
whenever the key is present — whatever its type — and only an absent
key falls back to the prior held value. -/
theorem claim_C8_load_field_fallback :
    (∀ (p : JPlayer) (s : Store), loadState none p s = (false, p, s)) ∧
    (∀ (parsed : ParsedState) (p : JPlayer) (s : Store),
        (loadState (some parsed) p s).1 = true) ∧
    (∀ (parsed : ParsedState) (p : JPlayer) (s : Store) (n : Int),
        parsed.playerTileI = some (JVal.num n) →
        (loadState (some parsed) p s).2.1.tileI = n) ∧
    (∀ (parsed : ParsedState) (p : JPlayer) (s : Store) (v : JVal),
        parsed.playerTileI = some v → (∀ n : Int, v ≠ JVal.num n) →
        (loadState (some parsed) p s).2.1.tileI = p.tileI) ∧
    (∀ (parsed : ParsedState) (p : JPlayer) (s : Store),
        parsed.playerTileI = none →
        (loadState (some parsed) p s).2.1.tileI = p.tileI) ∧
    (∀ (parsed : ParsedState) (p : JPlayer) (s : Store) (n : Int),
        parsed.playerTileJ = some (JVal.num n) →
        (loadState (some parsed) p s).2.1.tileJ = n) ∧
    (∀ (parsed : ParsedState) (p : JPlayer) (s : Store) (v : JVal),
        parsed.playerTileJ = some v → (∀ n : Int, v ≠ JVal.num n) →
        (loadState (some parsed) p s).2.1.tileJ = p.tileJ) ∧
    (∀ (parsed : ParsedState) (p : JPlayer) (s : Store),
        parsed.playerTileJ = none →
        (loadState (some parsed) p s).2.1.tileJ = p.tileJ) ∧
    (∀ (parsed : ParsedState) (p : JPlayer) (s : Store) (v : JVal),
        parsed.heldValue = some v →
        (loadState (some parsed) p s).2.1.heldValue = v) ∧
    (∀ (parsed : ParsedState) (p : JPlayer) (s : Store),
        parsed.heldValue = none →
        (loadState (some parsed) p s).2.1.heldValue = p.heldValue) := by
  refine ⟨fun p s => rfl, fun parsed p s => rfl, ?_, ?_, ?_, ?_, ?_, ?_, ?_, ?_⟩
  · intro parsed p s n hti
    obtain ⟨ti, tj, hv, cs⟩ := parsed
    simp only at hti
    subst hti
    unfold loadState loadStateParsed
    rcases tj with _ | tjv <;> rcases hv with _ | hvv <;>
      first
        | rfl
        | (rcases tjv with _ | m | st | b <;> rfl)
  · intro parsed p s v hti hnotnum
    obtain ⟨ti, tj, hv, cs⟩ := parsed
    simp only at hti
    subst hti
    unfold loadState loadStateParsed
    rcases v with _ | n | st | b
    · rcases tj with _ | tjv <;> rcases hv with _ | hvv <;>
        first
          | rfl
          | (rcases tjv with _ | m | st2 | b2 <;> rfl)
    · exact absurd rfl (hnotnum n)
    · rcases tj with _ | tjv <;> rcases hv with _ | hvv <;>
        first
          | rfl
          | (rcases tjv with _ | m | st2 | b2 <;> rfl)
    · rcases tj with _ | tjv <;> rcases hv with _ | hvv <;>
        first
          | rfl
          | (rcases tjv with _ | m | st2 | b2 <;> rfl)
  · intro parsed p s hti
    obtain ⟨ti, tj, hv, cs⟩ := parsed
    simp only at hti
    subst hti
    unfold loadState loadStateParsed
    rcases tj with _ | tjv <;> rcases hv with _ | hvv <;>
      first
        | rfl
        | (rcases tjv with _ | m | st | b <;> rfl)
  · intro parsed p s n htj
    obtain ⟨ti, tj, hv, cs⟩ := parsed
    simp only at htj
    subst htj
    unfold loadState loadStateParsed
    rcases ti with _ | tiv <;> rcases hv with _ | hvv <;>
      first
        | rfl
        | (rcases tiv with _ | m | st | b <;> rfl)
  · intro parsed p s v htj hnotnum
    obtain ⟨ti, tj, hv, cs⟩ := parsed
    simp only at htj
    subst htj
    unfold loadState loadStateParsed
    rcases v with _ | n | st | b
    · rcases ti with _ | tiv <;> rcases hv with _ | hvv <;>
        first
          | rfl
          | (rcases tiv with _ | m | st2 | b2 <;> rfl)
    · exact absurd rfl (hnotnum n)
    · rcases ti with _ | tiv <;> rcases hv with _ | hvv <;>
        first
          | rfl
          | (rcases tiv with _ | m | st2 | b2 <;> rfl)
    · rcases ti with _ | tiv <;> rcases hv with _ | hvv <;>
        first
          | rfl
          | (rcases tiv with _ | m | st2 | b2 <;> rfl)
  · intro parsed p s htj
    obtain ⟨ti, tj, hv, cs⟩ := parsed
    simp only at htj
    subst htj
    unfold loadState loadStateParsed
    rcases ti with _ | tiv <;> rcases hv with _ | hvv <;>
      first
        | rfl
        | (rcases tiv with _ | m | st | b <;> rfl)
  · intro parsed p s v hhv
    obtain ⟨ti, tj, hv, cs⟩ := parsed
    simp only at hhv
    subst hhv
    unfold loadState loadStateParsed
    rcases ti with _ | tiv <;> rcases tj with _ | tjv <;>
      first
        | rfl
        | (rcases tiv with _ | m | st | b <;>
            first
              | rfl
              | (rcases tjv with _ | m2 | st2 | b2 <;> rfl))
        | (rcases tjv with _ | m2 | st2 | b2 <;> rfl)
  · intro parsed p s hhv
    obtain ⟨ti, tj, hv, cs⟩ := parsed
    simp only at hhv
    subst hhv
    unfold loadState loadStateParsed
    rcases ti with _ | tiv <;> rcases tj with _ | tjv <;>
      first
        | rfl
        | (rcases tiv with _ | m | st | b <;>
            first
              | rfl
              | (rcases tjv with _ | m2 | st2 | b2 <;> rfl))
        | (rcases tjv with _ | m2 | st2 | b2 <;> rfl)

/-- Witness for C8.  First blob: a non-numeric `playerTileI`, a numeric
`playerTileJ` and a boolean `heldValue` — the tile row falls back to
the default 0, the tile column loads as 9, and the held slot receives
the boolean verbatim.  Second blob: an absent `playerTileI` and a
non-numeric `playerTileJ` — both tiles keep their defaults. -/
theorem claim_C8_load_field_fallback_witness :
    (loadState
        (some { playerTileI := some (JVal.str "x"),
                playerTileJ := some (JVal.num 9),
                heldValue := some (JVal.bool true),
                caches := none })
        freshPlayer emptyStore).2.1.tileI = freshPlayer.tileI ∧
    (loadState
        (some { playerTileI := some (JVal.str "x"),
                playerTileJ := some (JVal.num 9),
                heldValue := some (JVal.bool true),
                caches := none })
        freshPlayer emptyStore).2.1.tileJ = 9 ∧
    (loadState
        (some { playerTileI := some (JVal.str "x"),
                playerTileJ := some (JVal.num 9),
                heldValue := some (JVal.bool true),
                caches := none })
        freshPlayer emptyStore).2.1.heldValue = JVal.bool true ∧
    (loadState
        (some { playerTileI := none,
                playerTileJ := some (JVal.bool false),
                heldValue := none,
                caches := none })
        freshPlayer emptyStore).2.1.tileI = freshPlayer.tileI ∧
    (loadState
        (some { playerTileI := none,
                playerTileJ := some (JVal.bool false),
                heldValue := none,
                caches := none })
        freshPlayer emptyStore).2.1.tileJ = freshPlayer.tileJ := by
  refine ⟨?_, ?_, ?_, ?_, ?_⟩
  · exact claim_C8_load_field_fallback.2.2.2.1
      { playerTileI := some (JVal.str "x"), playerTileJ := some (JVal.num 9),
        heldValue := some (JVal.bool true), caches := none }
      freshPlayer emptyStore (JVal.str "x") rfl
      (fun n h => JVal.noConfusion h)
  · exact claim_C8_load_field_fallback.2.2.2.2.2.1
      { playerTileI := some (JVal.str "x"), playerTileJ := some (JVal.num 9),
        heldValue := some (JVal.bool true), caches := none }
      freshPlayer emptyStore 9 rfl
  · exact claim_C8_load_field_fallback.2.2.2.2.2.2.2.2.1
      { playerTileI := some (JVal.str "x"), playerTileJ := some (JVal.num 9),
        heldValue := some (JVal.bool true), caches := none }
      freshPlayer emptyStore (JVal.bool true) rfl
  · exact claim_C8_load_field_fallback.2.2.2.2.1
      { playerTileI := none, playerTileJ := some (JVal.bool false),
        heldValue := none, caches := none }
      freshPlayer emptyStore rfl
  · exact claim_C8_load_field_fallback.2.2.2.2.2.2.1
      { playerTileI := none, playerTileJ := some (JVal.bool false),
        heldValue := none, caches := none }
      freshPlayer emptyStore (JVal.bool false) rfl
      (fun n h => JVal.noConfusion h)

/-- C7 at its failing input: a successful Collect on an in-range cell
of value 1 by an empty-handed player at (0,0) persists exactly one
blob — written inside `player.setHeld` (main.ts line 607), before
`entry.pointValue = 0` (line 608), with no later save in the handler —
and that blob records the player holding 1 while the collected cell
still has value 1.  It therefore differs from a save of the post-action
state, whose cache list has the cell at 0. -/
theorem claim_C7_collect_save_stale :
    collectClickStoreSaves
        [{ i := 0, j := 0, pointValue := 1, rendered := true }] 0 0
        { tileI := 0, tileJ := 0, heldValue := none } =
      ([{ i := 0, j := 0, pointValue := 0, rendered := true }],
       { tileI := 0, tileJ := 0, heldValue := some 1 },
       [{ playerTileI := 0, playerTileJ := 0, heldValue := some 1,
          caches := [{ i := 0, j := 0, pointValue := 1 }] }]) ∧
    saveStatePayload { tileI := 0, tileJ := 0, heldValue := some 1 }
        [{ i := 0, j := 0, pointValue := 0, rendered := true }] ≠
      { playerTileI := 0, playerTileJ := 0, heldValue := some 1,
        caches := [{ i := 0, j := 0, pointValue := 1 }] } := by decide
